import Mathlib

/-!
# process-proxy: verification of the spec's claims against the source

Shallow embedding of the process-proxy IPC core:

* the framer (little-endian `u32`/`i32` fields, length-prefixed strings),
* the controller-side connection (`src/connection.ts`): the serialized
  command queue, `invoke`, the per-command response readers,
* the server acceptor (`ensureValidHandshake` / `createProxyProcessServer`),
* the native endpoint (`native/main.c`): handshake construction,
  `handle_read_stdin`, the stream-close handlers.

Byte strings are modelled as `List Nat` (each element a byte value); machine
integers are `Nat`/`Int` with explicit reduction modulo `2 ^ 32` where the
code truncates.
-/

namespace ProcessProxy

/-! ## Framer: little-endian integers and length-prefixed strings -/

/-- Little-endian encoding of a 32-bit unsigned value (`writeUInt32LE`). -/
def u32le (n : Nat) : List Nat :=
  [n % 256, n / 256 % 256, n / 2 ^ 16 % 256, n / 2 ^ 24 % 256]

/-- Little-endian encoding of a 32-bit signed value (`writeInt32LE`):
two's complement of the value reduced modulo `2 ^ 32`. -/
def i32le (n : Int) : List Nat :=
  u32le ((n % (2 ^ 32 : Int)).toNat)

/-- Decode four little-endian bytes as an unsigned 32-bit value
(`readUInt32LE`). -/
def decodeU32 (b0 b1 b2 b3 : Nat) : Nat :=
  b0 % 256 + 256 * (b1 % 256) + 2 ^ 16 * (b2 % 256) + 2 ^ 24 * (b3 % 256)

/-- Reinterpret an unsigned 32-bit word as a signed 32-bit value
(two's complement). -/
def asI32 (w : Nat) : Int :=
  if w % 2 ^ 32 < 2 ^ 31 then ((w % 2 ^ 32 : Nat) : Int)
  else ((w % 2 ^ 32 : Nat) : Int) - 2 ^ 32

/-- Decode four little-endian bytes as a signed 32-bit value
(`readInt32LE`). -/
def decodeI32 (b0 b1 b2 b3 : Nat) : Int :=
  asI32 (decodeU32 b0 b1 b2 b3)

/-- Decode a byte string as text, one character per byte.  The source decodes
UTF-8; for the properties proved here only emptiness and identity of the byte
content matter, so the per-byte decoding is a faithful abstraction. -/
def textOfBytes (bs : List Nat) : String :=
  String.mk (bs.map Char.ofNat)

/-! ## Socket reading (`read-socket.ts`): take exactly `n` bytes or fail -/

/-- `readSocket`: waits for exactly `n` bytes; if the socket closes first the
promise rejects.  In the embedding the available input is a byte list; fewer
than `n` bytes available models the socket closing early. -/
def readBytes (n : Nat) (input : List Nat) : Except String (List Nat × List Nat) :=
  if n ≤ input.length then .ok (input.take n, input.drop n)
  else .error "Socket closed before receiving all data"

/-- `readUInt32LE` over the socket: four bytes, little-endian unsigned. -/
def readU32 (input : List Nat) : Except String (Nat × List Nat) :=
  match readBytes 4 input with
  | .error e => .error e
  | .ok (bs, rest) =>
    match bs with
    | [b0, b1, b2, b3] => .ok (decodeU32 b0 b1 b2 b3, rest)
    | _ => .error "Socket closed before receiving all data"

/-- `readInt32LE` over the socket: four bytes, little-endian signed. -/
def readI32 (input : List Nat) : Except String (Int × List Nat) :=
  match readBytes 4 input with
  | .error e => .error e
  | .ok (bs, rest) =>
    match bs with
    | [b0, b1, b2, b3] => .ok (decodeI32 b0 b1 b2 b3, rest)
    | _ => .error "Socket closed before receiving all data"

/-- `readLengthPrefixedString`: a `u32` byte count followed by that many
bytes. -/
def readLP (input : List Nat) : Except String (List Nat × List Nat) :=
  match readU32 input with
  | .error e => .error e
  | .ok (n, rest) => readBytes n rest

end ProcessProxy

namespace ProcessProxy

/-! ### Framer round-trip lemmas -/

theorem u32le_length (n : Nat) : (u32le n).length = 4 := rfl

theorem readBytes_exact (xs rest : List Nat) :
    readBytes xs.length (xs ++ rest) = .ok (xs, rest) := by
  simp [readBytes, List.take_append, List.drop_append]

theorem decodeU32_u32le (n : Nat) (h : n < 2 ^ 32) :
    decodeU32 (n % 256) (n / 256 % 256) (n / 2 ^ 16 % 256) (n / 2 ^ 24 % 256) = n := by
  unfold decodeU32
  omega

theorem readU32_u32le (n : Nat) (rest : List Nat) (h : n < 2 ^ 32) :
    readU32 (u32le n ++ rest) = .ok (n, rest) := by
  have hb : readBytes 4 (u32le n ++ rest) = .ok (u32le n, rest) := by
    have h4 : (u32le n).length = 4 := rfl
    have hx := readBytes_exact (u32le n) rest
    rwa [h4] at hx
  unfold readU32
  rw [hb]
  show Except.ok
      (decodeU32 (n % 256) (n / 256 % 256) (n / 2 ^ 16 % 256) (n / 2 ^ 24 % 256), rest) =
    Except.ok (n, rest)
  rw [decodeU32_u32le n h]

theorem asI32_mod_cancel (s : Int) (hl : -(2 ^ 31) ≤ s) (hu : s < 2 ^ 31) :
    asI32 ((s % (2 ^ 32 : Int)).toNat) = s := by
  have h2i : ((2 : Int) ^ 32) = 4294967296 := by norm_num
  have h2n : ((2 : Nat) ^ 32) = 4294967296 := by norm_num
  have h1n : ((2 : Nat) ^ 31) = 2147483648 := by norm_num
  unfold asI32
  rw [h2i, h2n, h1n]
  split <;> omega

theorem readI32_i32le (s : Int) (rest : List Nat)
    (hl : -(2 ^ 31) ≤ s) (hu : s < 2 ^ 31) :
    readI32 (i32le s ++ rest) = .ok (s, rest) := by
  have hb : readBytes 4 (i32le s ++ rest) = .ok (i32le s, rest) := by
    have h4 : (i32le s).length = 4 := rfl
    have hx := readBytes_exact (i32le s) rest
    rwa [h4] at hx
  have hw : ((s % (2 ^ 32 : Int)).toNat) < 2 ^ 32 := by
    have h2i : ((2 : Int) ^ 32) = 4294967296 := by norm_num
    have h2n : ((2 : Nat) ^ 32) = 4294967296 := by norm_num
    rw [h2i, h2n]
    omega
  unfold readI32
  rw [hb]
  show Except.ok
      (decodeI32 ((s % (2 ^ 32 : Int)).toNat % 256) ((s % (2 ^ 32 : Int)).toNat / 256 % 256)
        ((s % (2 ^ 32 : Int)).toNat / 2 ^ 16 % 256) ((s % (2 ^ 32 : Int)).toNat / 2 ^ 24 % 256),
        rest) =
    Except.ok (s, rest)
  rw [decodeI32, decodeU32_u32le _ hw, asI32_mod_cancel s hl hu]

theorem readLP_exact (msg rest : List Nat) (h : msg.length < 2 ^ 32) :
    readLP (u32le msg.length ++ (msg ++ rest)) = .ok (msg, rest) := by
  simp only [readLP, readU32_u32le msg.length (msg ++ rest) h]
  exact readBytes_exact msg rest

theorem textOfBytes_eq_empty_iff (bs : List Nat) :
    textOfBytes bs = "" ↔ bs = [] := by
  constructor
  · intro h
    cases bs with
    | nil => rfl
    | cons b tl =>
      have h' : (Char.ofNat b :: tl.map Char.ofNat) = ([] : List Char) :=
        congrArg String.data h
      exact (List.cons_ne_nil _ _ h').elim
  · intro h
    subst h
    rfl

end ProcessProxy

namespace ProcessProxy

/-! ## Controller-side connection (`src/connection.ts`) -/

/-- The eleven commands of the wire protocol, together with the request data
the controller attaches (`connection.ts` opcode constants `0x01`–`0x0C`). -/
inductive Cmd where
  | getArgs
  | readStdin (maxBytes : Nat)
  | writeStdout (data : List Nat)
  | writeStderr (data : List Nat)
  | getCwd
  | getEnv
  | exitCmd (code : Int)
  | closeStdin
  | closeStdout
  | closeStderr
  | isStdinConnected
deriving Repr, DecidableEq

/-- The opcode byte of each command (`GET_ARGS = 0x01` … `IS_STDIN_CONNECTED
= 0x0c`). -/
def opcode : Cmd → Nat
  | .getArgs => 0x01
  | .readStdin _ => 0x02
  | .writeStdout _ => 0x03
  | .writeStderr _ => 0x04
  | .getCwd => 0x05
  | .getEnv => 0x06
  | .exitCmd _ => 0x07
  | .closeStdin => 0x09
  | .closeStdout => 0x0a
  | .closeStderr => 0x0b
  | .isStdinConnected => 0x0c

/-- The request payload written after the opcode byte: `readStdin` sends
`uint32(maxBytes)`, the write commands send `uint32(data.length)` then the
data, `exit` sends `int32(code)`, everything else sends nothing. -/
def payload : Cmd → List Nat
  | .readStdin maxBytes => u32le maxBytes
  | .writeStdout data => u32le data.length ++ data
  | .writeStderr data => u32le data.length ++ data
  | .exitCmd code => i32le code
  | _ => []

/-- Whether the command is `EXIT` (used for the `hasSentExit` latch). -/
def isExit : Cmd → Bool
  | .exitCmd _ => true
  | _ => false

/-- Whether the command is one of the three stream-close commands. -/
def isCloseStream : Cmd → Bool
  | .closeStdin => true
  | .closeStdout => true
  | .closeStderr => true
  | _ => false

/-- What `invoke` does when the connection is closed or exit has been sent:
`closeStream` passes `onConnectionClosed: () => Promise.resolve()`, `exit`
passes a callback rejecting with "Connection already closed", and every other
operation passes no callback at all, so the guard in `invoke` falls through. -/
inductive ClosedBehavior where
  | pass
  | resolveLocal
  | rejectLocal (msg : String)
deriving Repr, DecidableEq

/-- The `onConnectionClosed` option each public operation supplies to
`invoke` (`closeStream`, `exit`, and the default of no callback). -/
def closedBehavior : Cmd → ClosedBehavior
  | .closeStdin => .resolveLocal
  | .closeStdout => .resolveLocal
  | .closeStderr => .resolveLocal
  | .exitCmd _ => .rejectLocal "Connection already closed"
  | _ => .pass

/-- Connection state visible to `invoke`: the socket's `closed` flag, the
`hasSentExit` latch, and whether the three stream facades have been
destroyed (exit's `onBeforeSend` destroys them). -/
structure ConnState where
  closed : Bool
  hasSentExit : Bool
  streamsDestroyed : Bool
deriving Repr, DecidableEq

/-- A fresh connection: socket open, no exit sent, facades alive. -/
def initialState : ConnState := ⟨false, false, false⟩

/-- The value an operation resolves with (the `T` of `invoke<T>`). -/
inductive WireResult where
  | unit
  | bytes (bs : List Nat)
  | stdinClosed
  | args (l : List (List Nat))
  | env (l : List (List Nat × List Nat))
  | cwd (s : List Nat)
  | bool (b : Bool)
deriving Repr, DecidableEq

/-- `readArgs`: the loop in `getArgs` reading `count` length-prefixed
strings. -/
def readArgs : Nat → List Nat → Except String (List (List Nat) × List Nat)
  | 0, input => .ok ([], input)
  | n + 1, input => do
    let (s, r) ← readLP input
    let (rest, r') ← readArgs n r
    .ok (s :: rest, r')

/-- `env[key] = value` on a JavaScript object: overwrite an existing key in
place, otherwise append. -/
def setEnv : List (List Nat × List Nat) → List Nat → List Nat →
    List (List Nat × List Nat)
  | [], k, v => [(k, v)]
  | (k', v') :: rest, k, v =>
    if k' = k then (k, v) :: rest else (k', v') :: setEnv rest k v

/-- `getEnv`'s per-entry split: `envVar.indexOf('=')`; entries without `=`
(`eqIndex === -1`) are skipped, otherwise key is everything before the first
`=` (byte 61) and value everything after it. -/
def splitEnvEntry (s : List Nat) : Option (List Nat × List Nat) :=
  match s.findIdx? (fun b => b == 61) with
  | none => none
  | some i => some (s.take i, s.drop (i + 1))

/-- The loop in `getEnv`: read `count` length-prefixed entries, split each at
the first `=`, build the record. -/
def readEnv : Nat → List (List Nat × List Nat) → List Nat →
    Except String (List (List Nat × List Nat) × List Nat)
  | 0, acc, input => .ok (acc, input)
  | n + 1, acc, input => do
    let (s, r) ← readLP input
    match splitEnvEntry s with
    | none => readEnv n acc r
    | some (k, v) => readEnv n (setEnv acc k v) r

/-- The success-path response reader of each command (the `readCb` passed to
`invoke`): `getArgs`/`getEnv`/`getCwd` parse their payloads, `readStdin`
reads the `i32` count and then the data, `isStdinConnected` reads an `i32`
and converts with `Boolean`, and the `send`-based commands (writes, closes,
exit) resolve immediately. -/
def responseReader : Cmd → List Nat → Except String (WireResult × List Nat)
  | .getArgs, input => do
    let (count, r) ← readU32 input
    let (l, r') ← readArgs count r
    .ok (.args l, r')
  | .getEnv, input => do
    let (count, r) ← readU32 input
    let (l, r') ← readEnv count [] r
    .ok (.env l, r')
  | .getCwd, input => do
    let (s, r) ← readLP input
    .ok (.cwd s, r)
  | .readStdin _, input => do
    let (available, r) ← readI32 input
    -- -1: stdin closed, 0: no data available
    if available ≤ 0 then
      .ok (if available = 0 then .bytes [] else .stdinClosed, r)
    else do
      let (bs, r') ← readBytes available.toNat r
      .ok (.bytes bs, r')
  | .isStdinConnected, input => do
    let (n, r) ← readI32 input
    .ok (.bool (n != 0), r)
  | _, input => .ok (.unit, input)

deriving instance DecidableEq for Except

/-- The outcome of one `invoke`: the connection state afterwards, the bytes
written to the socket, the unread remainder of the socket input, and the
operation's resolution or rejection. -/
structure InvokeOut where
  state : ConnState
  written : List Nat
  remaining : List Nat
  result : Except String WireResult
deriving Repr, DecidableEq

/-- The wire part of `invoke`: write the opcode byte and payload fragments,
read the `i32` status, on non-zero status read the length-prefixed error
message and reject (falling back to `Unknown error … from proxy` when the
decoded message is empty), on zero status latch `hasSentExit` for `EXIT` and
run the command's response reader. -/
def invokeWire (st : ConnState) (input : List Nat) (cmd : Cmd) : InvokeOut :=
  let written := opcode cmd :: payload cmd
  match readI32 input with
  | .error e => ⟨st, written, input, .error e⟩
  | .ok (statusCode, r1) =>
    if statusCode ≠ 0 then
      match readLP r1 with
      | .error e => ⟨st, written, r1, .error e⟩
      | .ok (msgBytes, r2) =>
        let errorMsg := textOfBytes msgBytes
        ⟨st, written, r2,
          .error (if errorMsg = "" then s!"Unknown error {statusCode} from proxy" else errorMsg)⟩
    else
      let st' := { st with hasSentExit := st.hasSentExit || isExit cmd }
      match responseReader cmd r1 with
      | .error e => ⟨st', written, r1, .error e⟩
      | .ok (res, r2) => ⟨st', written, r2, .ok res⟩

/-- The guard at the top of `handleInvoke`: if the connection is closed or
exit has been sent, take the operation's `onConnectionClosed` branch when it
has one; operations without the callback fall through to the wire. -/
def invokeGuard (st : ConnState) (input : List Nat) (cmd : Cmd) : InvokeOut :=
  if st.closed || st.hasSentExit then
    match closedBehavior cmd with
    | .resolveLocal => ⟨st, [], input, .ok .unit⟩
    | .rejectLocal m => ⟨st, [], input, .error m⟩
    | .pass => invokeWire st input cmd
  else invokeWire st input cmd

/-- `invoke`: run the pre-send hook (`exit`'s `onBeforeSend` destroys the
stream facades so queued writes drain first), then the closed-connection
guard and the wire exchange. -/
def invoke (st : ConnState) (input : List Nat) (cmd : Cmd) : InvokeOut :=
  invokeGuard (if isExit cmd then { st with streamsDestroyed := true } else st) input cmd

/-- The serial promise chain `this.queue = this.queue.then(handleInvoke,
handleInvoke)`: each submitted operation runs after the previous one has
settled, whether it resolved or rejected, so the queue is a left-to-right
fold over the submitted commands. -/
def runQueue : ConnState → List Nat → List Cmd →
    ConnState × List Nat × List (List Nat × Except String WireResult)
  | st, input, [] => (st, input, [])
  | st, input, c :: cs =>
    let o := invoke st input c
    let r := runQueue o.state o.remaining cs
    (r.1, r.2.1, (o.written, o.result) :: r.2.2)

end ProcessProxy

namespace ProcessProxy

example :
    invoke initialState (i32le 0 ++ u32le 0) .getArgs =
      ⟨initialState, [1], [], .ok (.args [])⟩ := by decide

example :
    (invoke initialState (i32le 1 ++ u32le 2 ++ [65, 66]) .getCwd).result =
      .error "AB" := by decide

end ProcessProxy

namespace ProcessProxy

/-! ## Native endpoint (`native/main.c`) and server acceptor -/

/-- Bytes of an ASCII string. -/
def strBytes (s : String) : List Nat := s.toList.map Char.toNat

/-- The 18 protocol bytes `"ProcessProxy 0001 "` (trailing space included). -/
def protocolBytes : List Nat := strBytes "ProcessProxy 0001 "

/-- `send_success`: the `i32` status 0. -/
def send_success : List Nat := i32le 0

/-- `send_error`: status −1, then the length-prefixed error message. -/
def send_error (msg : List Nat) : List Nat :=
  i32le (-1) ++ u32le msg.length ++ msg

/-- `get_error_message` (POSIX branch): `errno == 0` yields `"Command
failed"`; otherwise the `strerror` text when non-NULL, else `"Error code:
<errno>"`. -/
def get_error_message (error : Int) (strerrorMsg : Option (List Nat)) : List Nat :=
  if error = 0 then strBytes "Command failed"
  else
    match strerrorMsg with
    | some m => m
    | none => strBytes s!"Error code: {error}"

/-- The 146-byte handshake the native endpoint sends: the 18 protocol bytes,
then the token from `PROCESS_PROXY_TOKEN` truncated to 128 bytes, the rest of
the 128-byte field left as the `memset` zero padding (`none` models the
variable being unset). -/
def nativeHandshake (token : Option (List Nat)) : List Nat :=
  protocolBytes ++
    match token with
    | none => List.replicate 128 0
    | some t => t.take 128 ++ List.replicate (128 - min t.length 128) 0

/-- `tokenBuffer.indexOf(0)` then `subarray(0, nullIndex)`
(`ensureValidHandshake`): the token is the prefix of the 128-byte field up to
but not including the first zero byte, or the whole field when no zero byte
occurs. -/
def tokenOfField (field : List Nat) : List Nat :=
  match field.findIdx? (fun b => b == 0) with
  | none => field
  | some i => field.take i

/-- The controller's token capture: slice the 128-byte token field out of the
146-byte handshake and extract up to the first zero byte. -/
def handshakeTokenBytes (hs : List Nat) : List Nat :=
  tokenOfField ((hs.drop 18).take 128)

/-- `DEFAULT_HANDSHAKE_TIMEOUT` of the acceptor (milliseconds). -/
def DEFAULT_HANDSHAKE_TIMEOUT : Nat := 1000

/-- `HANDSHAKE_PROTOCOL_LENGTH + HANDSHAKE_TOKEN_LENGTH`. -/
def HANDSHAKE_LENGTH : Nat := 18 + 128

/-- Options of `createProxyProcessServer`: the optional asynchronous token
validator and the optional per-server handshake deadline. -/
structure ServerOptions where
  validateConnection : Option (List Nat → Bool) := none
  handshakeTimeout : Option Nat := none

/-- `handshakeTimeout ?? DEFAULT_HANDSHAKE_TIMEOUT`. -/
def effectiveHandshakeTimeout (opts : ServerOptions) : Nat :=
  opts.handshakeTimeout.getD DEFAULT_HANDSHAKE_TIMEOUT

/-- Result of `ensureValidHandshake`. -/
inductive HandshakeOutcome where
  | accepted (token : List Nat) (leftover : List Nat)
  | rejected (reason : String)
deriving Repr

/-- `ensureValidHandshake`: read exactly 146 bytes under the deadline (`none`
models the deadline expiring before they arrive; a list shorter than 146
models the socket closing first), verify the 18-byte protocol header, extract
the token up to the first zero byte, and consult the optional validation
policy.  Bytes beyond the 146 are left for the connection's read path. -/
def ensureValidHandshake (avail : Option (List Nat))
    (validate : Option (List Nat → Bool)) : HandshakeOutcome :=
  match avail with
  | none => .rejected "The operation was aborted due to timeout"
  | some bytes =>
    if bytes.length < HANDSHAKE_LENGTH then
      .rejected "Socket closed before receiving all data"
    else
      let hs := bytes.take HANDSHAKE_LENGTH
      if hs.take 18 ≠ protocolBytes then .rejected "Invalid handshake protocol"
      else
        let token := handshakeTokenBytes hs
        match validate with
        | some v =>
          if v token then .accepted token (bytes.drop HANDSHAKE_LENGTH)
          else .rejected "Connection validation failed"
        | none => .accepted token (bytes.drop HANDSHAKE_LENGTH)

/-- The accept path of `createProxyProcessServer`: on a valid handshake the
listener is invoked with a new connection carrying the token; on any
rejection the socket is ended and the listener is never invoked.  Returns
(token passed to the consumer if invoked, whether the socket was closed). -/
def serverHandleConnection (opts : ServerOptions) (avail : Option (List Nat)) :
    Option (List Nat) × Bool :=
  match ensureValidHandshake avail opts.validateConnection with
  | .accepted token _ => (some token, false)
  | .rejected _ => (none, true)

/-- The possible outcomes of the `read(STDIN_FILENO, buffer, max_bytes)` call
in `handle_read_stdin`: a negative result with `errno` of
`EAGAIN`/`EWOULDBLOCK`, a negative result with any other `errno`, or a
non-negative result delivering `bs` (empty `bs` is the clean end-of-input
result 0). -/
inductive StdinReadOutcome where
  | wouldBlock
  | ioError
  | bytesRead (bs : List Nat)
deriving Repr, DecidableEq

/-- `O_NONBLOCK` (the Linux/macOS value; only the bit's presence matters). -/
def O_NONBLOCK : Nat := 2048

/-- What `handle_read_stdin` did: the response bytes it wrote, the sequence
of `fcntl(STDIN_FILENO, F_SETFL, …)` flag values it issued, and the flags in
effect during the `read` call (`none` when no read was attempted). -/
structure ReadStdinResult where
  reply : List Nat
  fcntlSets : List Nat
  readFlags : Option Nat
deriving Repr, DecidableEq

/-- `handle_read_stdin` (POSIX branch): read the `i32` max-bytes field; if it
is ≤ 0 as a signed value, reply success with count 0 and touch nothing; if
`malloc` fails, send an error response; otherwise set stdin non-blocking,
read once, restore the original flags, and reply success with the count
(−1 for end-of-input or other I/O error, 0 for would-block) followed by the
data when the count is positive. -/
def handle_read_stdin (field : Nat) (mallocOk : Bool) (allocErrMsg : List Nat)
    (origFlags : Nat) (outcome : StdinReadOutcome) : ReadStdinResult :=
  let maxBytes := asI32 field
  if maxBytes ≤ 0 then
    { reply := send_success ++ i32le 0, fcntlSets := [], readFlags := none }
  else if !mallocOk then
    { reply := send_error allocErrMsg, fcntlSets := [], readFlags := none }
  else
    let n : Int :=
      match outcome with
      | .wouldBlock => 0
      | .ioError => -1
      | .bytesRead bs => if bs.isEmpty then -1 else (bs.length : Int)
    let data :=
      match outcome with
      | .bytesRead bs => bs
      | _ => []
    { reply := send_success ++ i32le n ++ (if 0 < n then data else []),
      fcntlSets := [origFlags ||| O_NONBLOCK, origFlags],
      readFlags := some (origFlags ||| O_NONBLOCK) }

/-- `handle_close_stdin` / `handle_close_stdout` / `handle_close_stderr`
(POSIX branch; the three differ only in the descriptor and an `fflush`):
`close(fd)` succeeds while the descriptor is open and afterwards the stream
is closed; closing an already-closed descriptor fails and `errno` is set to
`EBADF`, producing an error response carrying `get_error_message`'s text.
Returns the response bytes and whether the stream is open afterwards. -/
def handle_close_stream (streamOpen : Bool) (errnoVal : Int)
    (strerrorMsg : Option (List Nat)) : List Nat × Bool :=
  if streamOpen then (send_success, false)
  else (send_error (get_error_message errnoVal strerrorMsg), false)

/-- `EBADF`. -/
def EBADF : Int := 9

/-- Modelled from the spec: the native handler for `IS_INPUT_CONNECTED`
(opcode 0x0C) is missing from the native source under src/ — the command
loop in `native/main.c` there stops at opcode 0x0B and only the controller
caller `isStdinConnected` and its tests mention 0x0C.  Spec §4.3: "Returns
nonzero if input is attached and either not yet at end-of-stream or still
has buffered bytes to deliver; returns zero only when both the source is
closed and no buffered bytes remain", inside the status-0 envelope.
`sourceClosed` is true when input is detached or at end-of-stream;
`buffered` counts buffered unread bytes. -/
def handle_is_stdin_connected (sourceClosed : Bool) (buffered : Nat) : List Nat :=
  send_success ++ i32le (if sourceClosed = false ∨ 0 < buffered then 1 else 0)

end ProcessProxy

namespace ProcessProxy

/-! ### Token-field lemmas -/

theorem findIdx?_append_zeros (t : List Nat) (k : Nat) (h : ∀ b ∈ t, b ≠ 0) : ∀ i,
    (t ++ List.replicate k 0).findIdx? (fun b => b == 0) i =
      if k = 0 then none else some (i + t.length) := by
  induction t with
  | nil =>
    intro i
    cases k with
    | zero => simp
    | succ k => simp [List.replicate_succ, List.findIdx?_cons]
  | cons a t ih =>
    intro i
    have ha : ((a == 0) = true) = False := by
      simp only [beq_iff_eq, eq_iff_iff, iff_false]
      exact h a (List.mem_cons_self a t)
    rw [List.cons_append, List.findIdx?_cons, if_neg (by simp [ha])]
    rw [ih (fun b hb => h b (List.mem_cons_of_mem _ hb)) (i + 1)]
    by_cases hk : k = 0
    · simp [hk]
    · simp only [hk, if_false, List.length_cons]
      congr 1
      omega

theorem tokenOfField_append_zeros (t : List Nat) (k : Nat) (h : ∀ b ∈ t, b ≠ 0) :
    tokenOfField (t ++ List.replicate k 0) = t := by
  unfold tokenOfField
  rw [findIdx?_append_zeros t k h 0]
  by_cases hk : k = 0
  · simp [hk]
  · simp only [hk, if_false, Nat.zero_add]
    exact List.take_left t _

theorem nativeHandshake_field (tok : Option (List Nat)) :
    ((nativeHandshake tok).drop 18).take 128 =
      (match tok with
       | none => List.replicate 128 0
       | some t => t.take 128 ++ List.replicate (128 - min t.length 128) 0) := by
  have h18 : protocolBytes.length = 18 := by decide
  unfold nativeHandshake
  rw [← h18, List.drop_left]
  apply List.take_of_length_le
  cases tok with
  | none => simp
  | some t =>
    simp only [List.length_append, List.length_take, List.length_replicate]
    omega

end ProcessProxy

namespace ProcessProxy

/-! ### Queue and invoke helper lemmas -/

theorem invokeWire_written (st : ConnState) (input : List Nat) (cmd : Cmd) :
    (invokeWire st input cmd).written = opcode cmd :: payload cmd := by
  unfold invokeWire
  split
  · rfl
  · split
    · split
      · rfl
      · rfl
    · split
      · rfl
      · rfl

theorem invokeGuard_written_eq (st : ConnState) (input : List Nat) (cmd : Cmd) :
    (invokeGuard st input cmd).written = [] ∨
      (invokeGuard st input cmd).written = opcode cmd :: payload cmd := by
  unfold invokeGuard
  split
  · split
    · left; rfl
    · left; rfl
    · right; exact invokeWire_written st input cmd
  · right; exact invokeWire_written st input cmd

theorem invoke_written_eq (st : ConnState) (input : List Nat) (cmd : Cmd) :
    (invoke st input cmd).written = [] ∨
      (invoke st input cmd).written = opcode cmd :: payload cmd := by
  unfold invoke
  exact invokeGuard_written_eq _ input cmd

theorem runQueue_cons (st : ConnState) (input : List Nat) (c : Cmd) (cs : List Cmd) :
    (runQueue st input (c :: cs)).2.2 =
      ((invoke st input c).written, (invoke st input c).result) ::
        (runQueue (invoke st input c).state (invoke st input c).remaining cs).2.2 := rfl

theorem runQueue_length (st : ConnState) (input : List Nat) (cmds : List Cmd) :
    (runQueue st input cmds).2.2.length = cmds.length := by
  induction cmds generalizing st input with
  | nil => rfl
  | cons c cs ih =>
    rw [runQueue_cons, List.length_cons, List.length_cons, ih]

theorem runQueue_frames (st : ConnState) (input : List Nat) (cmds : List Cmd) :
    ∀ p ∈ (runQueue st input cmds).2.2.zip cmds,
      p.1.1 = [] ∨ p.1.1 = opcode p.2 :: payload p.2 := by
  induction cmds generalizing st input with
  | nil => intro p hp; simp [runQueue] at hp
  | cons c cs ih =>
    intro p hp
    rw [runQueue_cons, List.zip_cons_cons] at hp
    rcases List.mem_cons.mp hp with h | h
    · subst h
      exact invoke_written_eq st input c
    · exact ih _ _ p h

end ProcessProxy

namespace ProcessProxy

theorem closedBehavior_closeStream (cmd : Cmd) (hc : isCloseStream cmd = true) :
    closedBehavior cmd = .resolveLocal := by
  cases cmd <;> simp_all [isCloseStream, closedBehavior]

theorem isExit_false_of_closeStream (cmd : Cmd) (hc : isCloseStream cmd = true) :
    isExit cmd = false := by
  cases cmd <;> simp_all [isCloseStream, isExit]

theorem invokeGuard_closed_resolveLocal (st : ConnState) (input : List Nat) (cmd : Cmd)
    (hg : (st.closed || st.hasSentExit) = true)
    (hcb : closedBehavior cmd = .resolveLocal) :
    invokeGuard st input cmd = ⟨st, [], input, .ok .unit⟩ := by
  unfold invokeGuard
  rw [if_pos hg, hcb]

theorem invokeGuard_closed_rejectLocal (st : ConnState) (input : List Nat) (cmd : Cmd)
    (m : String) (hg : (st.closed || st.hasSentExit) = true)
    (hcb : closedBehavior cmd = .rejectLocal m) :
    invokeGuard st input cmd = ⟨st, [], input, .error m⟩ := by
  unfold invokeGuard
  rw [if_pos hg, hcb]

theorem invokeGuard_closed_pass (st : ConnState) (input : List Nat) (cmd : Cmd)
    (hg : (st.closed || st.hasSentExit) = true)
    (hcb : closedBehavior cmd = .pass) :
    invokeGuard st input cmd = invokeWire st input cmd := by
  unfold invokeGuard
  rw [if_pos hg, hcb]

theorem invokeGuard_open (st : ConnState) (input : List Nat) (cmd : Cmd)
    (hg : (st.closed || st.hasSentExit) = false) :
    invokeGuard st input cmd = invokeWire st input cmd := by
  unfold invokeGuard
  rw [if_neg (by simp [hg])]

theorem invoke_eq_guard_of_not_exit (st : ConnState) (input : List Nat) (cmd : Cmd)
    (hex : isExit cmd = false) :
    invoke st input cmd = invokeGuard st input cmd := by
  unfold invoke
  rw [hex, if_neg (by decide)]

theorem invoke_exitCmd_eq (st : ConnState) (input : List Nat) (code : Int) :
    invoke st input (.exitCmd code) =
      invokeGuard { st with streamsDestroyed := true } input (.exitCmd code) := rfl

end ProcessProxy

namespace ProcessProxy

/-! ## Claim theorems -/

/-- Claim C9 (confirmed): when the connection is already closed, or exit has
already been sent, at the moment a stream-close command reaches the head of
the queue, the operation resolves successfully without writing a byte to the
socket; `exit` submitted in the same situation instead rejects with a
"Connection already closed" error, also without writing. -/
theorem closed_close_resolves_exit_rejects (st : ConnState) (input : List Nat)
    (h : st.closed = true ∨ st.hasSentExit = true) :
    (∀ cmd, isCloseStream cmd = true →
        invoke st input cmd = ⟨st, [], input, .ok .unit⟩) ∧
    (∀ code : Int,
        invoke st input (.exitCmd code) =
          ⟨{ st with streamsDestroyed := true }, [], input,
            .error "Connection already closed"⟩) := by
  have hg : (st.closed || st.hasSentExit) = true := by
    rcases h with h | h <;> simp [h]
  constructor
  · intro cmd hc
    rw [invoke_eq_guard_of_not_exit st input cmd (isExit_false_of_closeStream cmd hc)]
    exact invokeGuard_closed_resolveLocal st input cmd hg (closedBehavior_closeStream cmd hc)
  · intro code
    rw [invoke_exitCmd_eq]
    exact invokeGuard_closed_rejectLocal _ input _ _ hg rfl

/-- Witness for C9 at a concrete closed connection. -/
theorem closed_close_resolves_exit_rejects_witness :
    invoke ⟨true, false, false⟩ [] .closeStdin =
      ⟨⟨true, false, false⟩, [], [], .ok .unit⟩ ∧
    invoke ⟨true, false, false⟩ [] (.exitCmd 0) =
      ⟨⟨true, false, true⟩, [], [], .error "Connection already closed"⟩ := by
  have h := closed_close_resolves_exit_rejects ⟨true, false, false⟩ [] (Or.inl rfl)
  exact ⟨h.1 .closeStdin rfl, h.2 0⟩

/-- Claim C1 (counterexample): a `getArgs` submitted after an exit command
completed with status 0 does not reject locally with a "connection already
closed" error — it writes its opcode byte `0x01` to the socket and, with a
well-formed success response, resolves with the argument list. -/
theorem after_exit_getArgs_counterexample :
    (runQueue initialState (i32le 0 ++ (i32le 0 ++ u32le 0))
        [.exitCmd 0, .getArgs]).2.2 =
      [([7, 0, 0, 0, 0], .ok .unit), ([1], .ok (.args []))] ∧
    ([1] : List Nat) ≠ [] := by
  exact ⟨by decide, by decide⟩

/-- Claim C1 (corrected, amended form): after exit has been sent
successfully (`hasSentExit` latched), a subsequently submitted `exit`
rejects locally with "Connection already closed" and writes nothing, a
stream-close resolves locally and writes nothing, but every other operation
(getArgs, getEnv, getCwd, isStdinConnected, stream reads and writes) is not
intercepted: it proceeds to write its opcode byte and payload to the
socket. -/
theorem after_exit_submissions (st : ConnState) (input : List Nat)
    (h : st.hasSentExit = true) :
    (∀ code : Int,
        (invoke st input (.exitCmd code)).written = [] ∧
        (invoke st input (.exitCmd code)).result =
          .error "Connection already closed") ∧
    (∀ cmd, isCloseStream cmd = true →
        (invoke st input cmd).written = [] ∧
        (invoke st input cmd).result = .ok .unit) ∧
    (∀ cmd, closedBehavior cmd = .pass →
        (invoke st input cmd).written = opcode cmd :: payload cmd) := by
  have hg : (st.closed || st.hasSentExit) = true := by simp [h]
  refine ⟨?_, ?_, ?_⟩
  · intro code
    rw [invoke_exitCmd_eq,
      invokeGuard_closed_rejectLocal { st with streamsDestroyed := true } input
        (.exitCmd code) "Connection already closed" hg rfl]
    exact ⟨rfl, rfl⟩
  · intro cmd hc
    rw [invoke_eq_guard_of_not_exit st input cmd (isExit_false_of_closeStream cmd hc),
      invokeGuard_closed_resolveLocal st input cmd hg (closedBehavior_closeStream cmd hc)]
    exact ⟨rfl, rfl⟩
  · intro cmd hcb
    have hex : isExit cmd = false := by
      cases cmd <;> simp_all [closedBehavior, isExit]
    rw [invoke_eq_guard_of_not_exit st input cmd hex,
      invokeGuard_closed_pass st input cmd hg hcb]
    exact invokeWire_written st input cmd

/-- Witness for the amended C1 at a concrete post-exit state. -/
theorem after_exit_submissions_witness :
    (invoke ⟨false, true, false⟩ [] (.exitCmd 3)).result =
      .error "Connection already closed" ∧
    (invoke ⟨false, true, false⟩ [] .closeStdout).written = [] ∧
    (invoke ⟨false, true, false⟩ [] .getArgs).written = [1] := by
  have h := after_exit_submissions ⟨false, true, false⟩ [] rfl
  exact ⟨(h.1 3).2, (h.2.1 .closeStdout rfl).1, h.2.2 .getArgs rfl⟩

end ProcessProxy

namespace ProcessProxy

/-- Claim C6 (confirmed): the queue is a single serial pipeline.  Each
submitted operation is chained onto the completion of the previous one
whether that one resolved or failed (the `cons` equation holds
unconditionally, in particular when the previous result is an error), the
queue produces exactly one outcome per submitted command in submission
order, and each operation's bytes on the wire are one contiguous block —
its opcode byte followed by its whole payload (or nothing at all for a
locally settled operation) — so command frames never interleave. -/
theorem queue_discipline (st : ConnState) (input : List Nat) (cmds : List Cmd) :
    (runQueue st input cmds).2.2.length = cmds.length ∧
    (∀ c cs, (runQueue st input (c :: cs)).2.2 =
        ((invoke st input c).written, (invoke st input c).result) ::
          (runQueue (invoke st input c).state (invoke st input c).remaining cs).2.2) ∧
    (∀ p ∈ (runQueue st input cmds).2.2.zip cmds,
        p.1.1 = [] ∨ p.1.1 = opcode p.2 :: payload p.2) :=
  ⟨runQueue_length st input cmds, fun c cs => runQueue_cons st input c cs,
    runQueue_frames st input cmds⟩

/-- Witness for C6 on a one-command queue. -/
theorem queue_discipline_witness :
    (runQueue initialState (i32le 0 ++ (u32le 1 ++ [47])) [Cmd.getCwd]).2.2.length = 1 ∧
    ((([5], Except.ok (WireResult.cwd [47])) : List Nat × Except String WireResult).1 = [] ∨
      (([5], Except.ok (WireResult.cwd [47])) : List Nat × Except String WireResult).1 =
        opcode Cmd.getCwd :: payload Cmd.getCwd) := by
  have h := queue_discipline initialState (i32le 0 ++ (u32le 1 ++ [47])) [Cmd.getCwd]
  refine ⟨h.1, ?_⟩
  have hm : ((([5], Except.ok (WireResult.cwd [47])) : List Nat × Except String WireResult),
      Cmd.getCwd) ∈
      (runQueue initialState (i32le 0 ++ (u32le 1 ++ [47])) [Cmd.getCwd]).2.2.zip
        [Cmd.getCwd] := by decide
  exact h.2.2 _ hm

theorem invokeWire_error_status (st : ConnState) (cmd : Cmd) (status : Int)
    (msg rest : List Nat) (hs0 : status ≠ 0) (hsl : -(2 ^ 31) ≤ status)
    (hsu : status < 2 ^ 31) (hml : msg.length < 2 ^ 32) :
    invokeWire st (i32le status ++ (u32le msg.length ++ (msg ++ rest))) cmd =
      ⟨st, opcode cmd :: payload cmd, rest,
        .error (if textOfBytes msg = "" then s!"Unknown error {status} from proxy"
                else textOfBytes msg)⟩ := by
  simp only [invokeWire, readI32_i32le status _ hsl hsu, readLP_exact msg rest hml,
    hs0, ne_eq, not_false_eq_true, if_true, ite_true]

theorem invokeWire_zero_status (st : ConnState) (cmd : Cmd) (body : List Nat) :
    invokeWire st (i32le 0 ++ body) cmd =
      match responseReader cmd body with
      | .ok (res, r2) => ⟨{ st with hasSentExit := st.hasSentExit || isExit cmd },
          opcode cmd :: payload cmd, r2, .ok res⟩
      | .error e => ⟨{ st with hasSentExit := st.hasSentExit || isExit cmd },
          opcode cmd :: payload cmd, body, .error e⟩ := by
  have h0 : readI32 (i32le 0 ++ body) = .ok (0, body) :=
    readI32_i32le 0 body (by norm_num) (by norm_num)
  cases hr : responseReader cmd body with
  | error e =>
    simp only [invokeWire, h0, hr, ne_eq, not_true_eq_false, if_false, ite_false]
  | ok pr =>
    obtain ⟨res, r2⟩ := pr
    simp only [invokeWire, h0, hr, ne_eq, not_true_eq_false, if_false, ite_false]

/-- Claim C4 (corrected, amended form): for every command the controller
completes, it first reads the `i32` status.  On a non-zero status it reads
exactly one length-prefixed error message (consuming nothing beyond it),
rejects that one operation with the decoded message — substituting "Unknown
error ‹status› from proxy" when the decoded message is empty — leaves the
connection up (`closed` and `hasSentExit` unchanged), and the queue still
produces an outcome for every subsequently queued operation.  On a zero
status it runs the command's response reader to completion: the operation
resolves with the reader's value and consumes exactly the reader's bytes
(or rejects with the reader's error when the reader fails). -/
theorem error_status_policy (st : ConnState) (cmd : Cmd) (status : Int)
    (msg rest : List Nat) (cmds : List Cmd)
    (hopen : st.closed = false) (hexit : st.hasSentExit = false)
    (hs0 : status ≠ 0) (hsl : -(2 ^ 31) ≤ status) (hsu : status < 2 ^ 31)
    (hml : msg.length < 2 ^ 32) :
    (invoke st (i32le status ++ (u32le msg.length ++ (msg ++ rest))) cmd).written =
        opcode cmd :: payload cmd ∧
    (invoke st (i32le status ++ (u32le msg.length ++ (msg ++ rest))) cmd).remaining = rest ∧
    (invoke st (i32le status ++ (u32le msg.length ++ (msg ++ rest))) cmd).result =
        .error (if textOfBytes msg = "" then s!"Unknown error {status} from proxy"
                else textOfBytes msg) ∧
    (invoke st (i32le status ++ (u32le msg.length ++ (msg ++ rest))) cmd).state.closed = false ∧
    (invoke st (i32le status ++ (u32le msg.length ++ (msg ++ rest))) cmd).state.hasSentExit = false ∧
    (runQueue st (i32le status ++ (u32le msg.length ++ (msg ++ rest))) (cmd :: cmds)).2.2.length =
        cmds.length + 1 ∧
    (∀ (body : List Nat) (res : WireResult) (r2 : List Nat),
        responseReader cmd body = .ok (res, r2) →
        (invoke st (i32le 0 ++ body) cmd).result = .ok res ∧
        (invoke st (i32le 0 ++ body) cmd).remaining = r2 ∧
        (invoke st (i32le 0 ++ body) cmd).written = opcode cmd :: payload cmd) ∧
    (∀ (body : List Nat) (e : String),
        responseReader cmd body = .error e →
        (invoke st (i32le 0 ++ body) cmd).result = .error e) := by
  have hpc : (if isExit cmd then { st with streamsDestroyed := true } else st).closed =
      st.closed := by split <;> rfl
  have hpe : (if isExit cmd then { st with streamsDestroyed := true } else st).hasSentExit =
      st.hasSentExit := by split <;> rfl
  have hguard : ((if isExit cmd then { st with streamsDestroyed := true } else st).closed ||
      (if isExit cmd then { st with streamsDestroyed := true } else st).hasSentExit) = false := by
    rw [hpc, hpe, hopen, hexit]
    rfl
  have hiv : invoke st (i32le status ++ (u32le msg.length ++ (msg ++ rest))) cmd =
      invokeWire (if isExit cmd then { st with streamsDestroyed := true } else st)
        (i32le status ++ (u32le msg.length ++ (msg ++ rest))) cmd :=
    invokeGuard_open _ _ cmd hguard
  rw [hiv, invokeWire_error_status _ cmd status msg rest hs0 hsl hsu hml]
  refine ⟨rfl, rfl, rfl, hpc.trans hopen, hpe.trans hexit, ?_, ?_, ?_⟩
  · rw [runQueue_length]
    rfl
  · intro body res r2 hr
    have hiv0 : invoke st (i32le 0 ++ body) cmd =
        invokeWire (if isExit cmd then { st with streamsDestroyed := true } else st)
          (i32le 0 ++ body) cmd :=
      invokeGuard_open _ _ cmd hguard
    rw [hiv0, invokeWire_zero_status _ cmd body, hr]
    exact ⟨rfl, rfl, rfl⟩
  · intro body e hr
    have hiv0 : invoke st (i32le 0 ++ body) cmd =
        invokeWire (if isExit cmd then { st with streamsDestroyed := true } else st)
          (i32le 0 ++ body) cmd :=
      invokeGuard_open _ _ cmd hguard
    rw [hiv0, invokeWire_zero_status _ cmd body, hr]

/-- Claim C4 (counterexample): with status 1 followed by an empty
length-prefixed message, the controller rejects the operation with the
fallback text "Unknown error 1 from proxy", not with the decoded (empty)
message. -/
theorem empty_error_message_counterexample :
    (invoke initialState (i32le 1 ++ u32le 0) .getCwd).result =
      .error "Unknown error 1 from proxy" ∧
    textOfBytes [] = "" ∧
    ("Unknown error 1 from proxy" : String) ≠ textOfBytes [] := by
  refine ⟨by decide, rfl, by decide⟩

/-- Witness for the amended C4: a non-zero status with the one-byte message
"A" rejects with it, and a zero status runs `getCwd`'s response reader,
resolving with the decoded path. -/
theorem error_status_policy_witness :
    (invoke initialState (i32le 1 ++ (u32le 1 ++ ([65] ++ []))) .getCwd).written = [5] ∧
    (invoke initialState (i32le 1 ++ (u32le 1 ++ ([65] ++ []))) .getCwd).result =
      .error "A" ∧
    (invoke initialState (i32le 0 ++ (u32le 1 ++ [47])) .getCwd).result =
      .ok (.cwd [47]) := by
  have h := error_status_policy initialState .getCwd 1 [65] [] [] rfl rfl
    (by decide) (by decide) (by decide) (by decide)
  exact ⟨h.1, h.2.2.1.trans (by decide),
    (h.2.2.2.2.2.2.1 (u32le 1 ++ [47]) (.cwd [47]) [] (by decide)).1⟩

end ProcessProxy

namespace ProcessProxy

theorem invokeWire_isStdinConnected (st : ConnState) (v : Int) (rest : List Nat)
    (hvl : -(2 ^ 31) ≤ v) (hvu : v < 2 ^ 31) :
    invokeWire st (i32le 0 ++ (i32le v ++ rest)) .isStdinConnected =
      ⟨st, [0x0c], rest, .ok (.bool (v != 0))⟩ := by
  have h0 : readI32 (i32le 0 ++ (i32le v ++ rest)) = .ok (0, i32le v ++ rest) :=
    readI32_i32le 0 _ (by norm_num) (by norm_num)
  have hv : readI32 (i32le v ++ rest) = .ok (v, rest) := readI32_i32le v rest hvl hvu
  simp only [invokeWire, h0, responseReader, hv, ne_eq, not_true_eq_false, ite_false,
    if_false, isExit, Bool.or_false]
  rfl

end ProcessProxy

namespace ProcessProxy

/-- Claim C2 (confirmed; the native handler is modelled from the spec, see
`handle_is_stdin_connected`): every IS_INPUT_CONNECTED (opcode 0x0C) reply
is a status-0 response whose `i32` payload is nonzero exactly when input is
attached and either not at end-of-stream or buffered unread bytes remain,
and zero exactly when the source is closed and no buffered bytes remain; on
such a reply the controller's `isStdinConnected` resolves with the
corresponding boolean. -/
theorem is_input_connected_roundtrip (sourceClosed : Bool) (buffered : Nat)
    (st : ConnState) (rest : List Nat)
    (hopen : st.closed = false) (hexit : st.hasSentExit = false) :
    handle_is_stdin_connected sourceClosed buffered =
      send_success ++ i32le (if sourceClosed = false ∨ 0 < buffered then 1 else 0) ∧
    ((if sourceClosed = false ∨ 0 < buffered then (1 : Int) else 0) ≠ 0 ↔
      (sourceClosed = false ∨ 0 < buffered)) ∧
    ((if sourceClosed = false ∨ 0 < buffered then (1 : Int) else 0) = 0 ↔
      (sourceClosed = true ∧ buffered = 0)) ∧
    (invoke st (handle_is_stdin_connected sourceClosed buffered ++ rest)
        .isStdinConnected).written = [0x0c] ∧
    (invoke st (handle_is_stdin_connected sourceClosed buffered ++ rest)
        .isStdinConnected).remaining = rest ∧
    (invoke st (handle_is_stdin_connected sourceClosed buffered ++ rest)
        .isStdinConnected).result =
      .ok (.bool (decide (sourceClosed = false ∨ 0 < buffered))) := by
  have hguard : (st.closed || st.hasSentExit) = false := by rw [hopen, hexit]; rfl
  have hinput : handle_is_stdin_connected sourceClosed buffered ++ rest =
      i32le 0 ++ (i32le (if sourceClosed = false ∨ 0 < buffered then 1 else 0) ++ rest) := by
    unfold handle_is_stdin_connected send_success
    rw [List.append_assoc]
  have hiv : invoke st (handle_is_stdin_connected sourceClosed buffered ++ rest)
      .isStdinConnected =
      invokeWire st (handle_is_stdin_connected sourceClosed buffered ++ rest)
        .isStdinConnected := by
    rw [invoke_eq_guard_of_not_exit st
      (handle_is_stdin_connected sourceClosed buffered ++ rest) .isStdinConnected rfl]
    exact invokeGuard_open st _ _ hguard
  by_cases hd : sourceClosed = false ∨ 0 < buffered
  · have hw : invokeWire st (handle_is_stdin_connected sourceClosed buffered ++ rest)
        .isStdinConnected = ⟨st, [0x0c], rest, .ok (.bool ((1 : Int) != 0))⟩ := by
      rw [hinput, if_pos hd]
      exact invokeWire_isStdinConnected st 1 rest (by norm_num) (by norm_num)
    rw [hiv, hw]
    refine ⟨rfl, ?_, ?_, rfl, rfl, ?_⟩
    · simp [hd]
    · simp only [if_pos hd]
      constructor
      · intro h; exact absurd h (by norm_num)
      · intro h
        rcases hd with hd | hd
        · rw [hd] at h; exact absurd h.1 (by simp)
        · exact absurd h.2 (by omega)
    · simp [hd]
  · have hw : invokeWire st (handle_is_stdin_connected sourceClosed buffered ++ rest)
        .isStdinConnected = ⟨st, [0x0c], rest, .ok (.bool ((0 : Int) != 0))⟩ := by
      rw [hinput, if_neg hd]
      exact invokeWire_isStdinConnected st 0 rest (by norm_num) (by norm_num)
    rw [hiv, hw]
    refine ⟨rfl, ?_, ?_, rfl, rfl, ?_⟩
    · simp [hd]
    · simp only [if_neg hd]
      constructor
      · intro _
        cases hsc : sourceClosed with
        | false => exact absurd (Or.inl hsc) hd
        | true => exact ⟨rfl, by omega⟩
      · intro _; trivial
    · simp [hd]

/-- Witness for C2: input attached with three buffered bytes on an open
connection. -/
theorem is_input_connected_roundtrip_witness :
    (invoke initialState (handle_is_stdin_connected false 3 ++ [9])
        .isStdinConnected).result = .ok (.bool true) ∧
    (invoke initialState (handle_is_stdin_connected false 3 ++ [9])
        .isStdinConnected).remaining = [9] := by
  have h := is_input_connected_roundtrip false 3 initialState [9] rfl rfl
  exact ⟨h.2.2.2.2.2.trans (by decide), h.2.2.2.2.1⟩

end ProcessProxy

namespace ProcessProxy

/-- Claim C5 (confirmed): for a READ_INPUT command with a positive max-bytes
value and a successful buffer allocation, the native reply is status 0
followed by count `n` = 0 when the read would block, `n` = −1 at clean
end-of-stream (`read` returning 0), `n` = −1 on any other input I/O error,
and otherwise the number of bytes actually read followed by exactly those
bytes; the `read` is issued with `O_NONBLOCK` set (the handler never blocks
on input) and the last `fcntl(F_SETFL, …)` restores the original flags. -/
theorem read_input_reply (field : Nat) (allocErrMsg : List Nat) (origFlags : Nat)
    (outcome : StdinReadOutcome) (hpos : 0 < asI32 field) :
    ((handle_read_stdin field true allocErrMsg origFlags outcome).reply =
        match outcome with
        | .wouldBlock => send_success ++ i32le 0
        | .ioError => send_success ++ i32le (-1)
        | .bytesRead [] => send_success ++ i32le (-1)
        | .bytesRead bs => send_success ++ i32le (bs.length : Int) ++ bs) ∧
    (handle_read_stdin field true allocErrMsg origFlags outcome).readFlags =
      some (origFlags ||| O_NONBLOCK) ∧
    (origFlags ||| O_NONBLOCK).testBit 11 = true ∧
    (handle_read_stdin field true allocErrMsg origFlags outcome).fcntlSets =
      [origFlags ||| O_NONBLOCK, origFlags] := by
  have hneg : ¬ asI32 field ≤ 0 := by omega
  have hnb : (origFlags ||| O_NONBLOCK).testBit 11 = true := by
    rw [Nat.testBit_lor]
    have : O_NONBLOCK.testBit 11 = true := by decide
    rw [this, Bool.or_true]
  unfold handle_read_stdin
  rw [if_neg hneg]
  refine ⟨?_, rfl, hnb, rfl⟩
  cases outcome with
  | wouldBlock => rfl
  | ioError => rfl
  | bytesRead bs =>
    cases bs with
    | nil => rfl
    | cons b tl =>
      show send_success ++ i32le ((b :: tl).length : Int) ++
          (if (0 : Int) < ((b :: tl).length : Int) then b :: tl else []) =
        send_success ++ i32le ((b :: tl).length : Int) ++ (b :: tl)
      rw [if_pos (by exact_mod_cast Nat.succ_pos tl.length)]

/-- Witness for C5: a three-byte read with max 8192. -/
theorem read_input_reply_witness :
    (handle_read_stdin 8192 true [] 2 (.bytesRead [10, 20, 30])).reply =
      send_success ++ i32le 3 ++ [10, 20, 30] ∧
    (handle_read_stdin 8192 true [] 2 (.bytesRead [10, 20, 30])).fcntlSets =
      [2 ||| O_NONBLOCK, 2] := by
  have h := read_input_reply 8192 [] 2 (.bytesRead [10, 20, 30]) (by decide)
  exact ⟨h.1.trans (by decide), h.2.2.2⟩

/-- Claim C10 (confirmed): the native endpoint reads the READ_INPUT
max-bytes field as a signed 32-bit integer, so a field of 0 or of at least
`2 ^ 31` (negative as an `i32`) yields a status-0 reply with count 0, with
no read attempted and no change to the input's mode — regardless of the
allocation outcome or the state of local input. -/
theorem read_input_nonpositive_max (field : Nat) (mallocOk : Bool)
    (allocErrMsg : List Nat) (origFlags : Nat) (outcome : StdinReadOutcome)
    (hfield : field < 2 ^ 32) (h : field = 0 ∨ 2 ^ 31 ≤ field) :
    handle_read_stdin field mallocOk allocErrMsg origFlags outcome =
      { reply := send_success ++ i32le 0, fcntlSets := [], readFlags := none } := by
  have hle : asI32 field ≤ 0 := by
    have h2n : ((2 : Nat) ^ 32) = 4294967296 := by norm_num
    have h1n : ((2 : Nat) ^ 31) = 2147483648 := by norm_num
    unfold asI32
    rw [h2n, h1n] at *
    split <;> omega
  unfold handle_read_stdin
  rw [if_pos hle]

/-- Witness for C10 at field `2 ^ 31` (i.e. −2147483648 as an `i32`). -/
theorem read_input_nonpositive_max_witness :
    handle_read_stdin (2 ^ 31) true [7] 0 (.bytesRead [1]) =
      { reply := send_success ++ i32le 0, fcntlSets := [], readFlags := none } :=
  read_input_nonpositive_max (2 ^ 31) true [7] 0 (.bytesRead [1])
    (by norm_num) (Or.inr le_rfl)

end ProcessProxy

namespace ProcessProxy

theorem nativeHandshake_field_some (t : List Nat) :
    ((nativeHandshake (some t)).drop 18).take 128 =
      t.take 128 ++ List.replicate (128 - min t.length 128) 0 :=
  nativeHandshake_field (some t)

theorem nativeHandshake_field_none :
    ((nativeHandshake none).drop 18).take 128 = List.replicate 128 0 :=
  nativeHandshake_field none

/-- Claim C3 (confirmed): the native side writes the token into the 128-byte
handshake field truncated to 128 bytes and right-padded with zero bytes
(all zeros when the variable is unset), and the controller recovers the
prefix up to but not including the first zero byte (all 128 bytes when no
zero occurs); therefore the captured token equals the supplied token for
tokens of at most 128 bytes, is empty for an unset variable, and equals the
first 128 bytes for longer tokens.  Tokens come from a C string
(`getenv`), so their bytes are nonzero. -/
theorem token_capture_roundtrip :
    (∀ t : List Nat, (∀ b ∈ t, b ≠ 0) → t.length ≤ 128 →
        handshakeTokenBytes (nativeHandshake (some t)) = t) ∧
    handshakeTokenBytes (nativeHandshake none) = [] ∧
    (∀ t : List Nat, (∀ b ∈ t, b ≠ 0) → 128 < t.length →
        handshakeTokenBytes (nativeHandshake (some t)) = t.take 128) := by
  refine ⟨?_, ?_, ?_⟩
  · intro t h hlen
    unfold handshakeTokenBytes
    rw [nativeHandshake_field_some, List.take_of_length_le hlen,
      show min t.length 128 = t.length from by omega]
    exact tokenOfField_append_zeros t _ h
  · unfold handshakeTokenBytes
    rw [nativeHandshake_field_none]
    have h := tokenOfField_append_zeros [] 128 (by intro b hb; cases hb)
    rwa [List.nil_append] at h
  · intro t h hlen
    unfold handshakeTokenBytes
    rw [nativeHandshake_field_some, show min t.length 128 = 128 from by omega]
    have hsub : ∀ b ∈ t.take 128, b ≠ 0 := fun b hb => h b (List.mem_of_mem_take hb)
    exact tokenOfField_append_zeros (t.take 128) 0 hsub

/-- Witness for C3 with the token bytes `[109, 121]` ("my"). -/
theorem token_capture_roundtrip_witness :
    handshakeTokenBytes (nativeHandshake (some [109, 121])) = [109, 121] :=
  token_capture_roundtrip.1 [109, 121] (by decide) (by decide)

/-- Claim C7 (confirmed): the acceptor reads exactly 146 handshake bytes
(18 + 128) under a deadline that defaults to 1000 ms and is configurable per
server; when the deadline expires, the protocol prefix is wrong, or the
validation policy rejects, the socket is closed and the consumer callback is
never invoked for that attempt. -/
theorem acceptor_handshake_policy :
    effectiveHandshakeTimeout { validateConnection := none, handshakeTimeout := none } = 1000 ∧
    (∀ (t : Nat) (v : Option (List Nat → Bool)),
        effectiveHandshakeTimeout { validateConnection := v, handshakeTimeout := some t } = t) ∧
    HANDSHAKE_LENGTH = 146 ∧
    (∀ opts : ServerOptions, serverHandleConnection opts none = (none, true)) ∧
    (∀ (opts : ServerOptions) (bytes : List Nat),
        ¬ bytes.length < HANDSHAKE_LENGTH →
        (bytes.take HANDSHAKE_LENGTH).take 18 ≠ protocolBytes →
        serverHandleConnection opts (some bytes) = (none, true)) ∧
    (∀ (v : List Nat → Bool) (bytes : List Nat) (timeout : Option Nat),
        ¬ bytes.length < HANDSHAKE_LENGTH →
        (bytes.take HANDSHAKE_LENGTH).take 18 = protocolBytes →
        v (handshakeTokenBytes (bytes.take HANDSHAKE_LENGTH)) = false →
        serverHandleConnection
          { validateConnection := some v, handshakeTimeout := timeout }
          (some bytes) = (none, true)) := by
  refine ⟨rfl, fun t v => rfl, rfl, fun opts => rfl, ?_, ?_⟩
  · intro opts bytes hlen hpre
    have he : ensureValidHandshake (some bytes) opts.validateConnection =
        .rejected "Invalid handshake protocol" := by
      simp only [ensureValidHandshake]
      rw [if_neg hlen, if_pos hpre]
    unfold serverHandleConnection
    rw [he]
  · intro v bytes timeout hlen hpre hval
    have he : ensureValidHandshake (some bytes) (some v) =
        .rejected "Connection validation failed" := by
      simp only [ensureValidHandshake]
      rw [if_neg hlen, if_neg (by simp [hpre]), hval]
      rfl
    unfold serverHandleConnection
    rw [he]

set_option maxRecDepth 8192 in
/-- Witness for C7: 146 zero bytes fail the prefix check; the consumer is
not invoked and the socket is closed. -/
theorem acceptor_handshake_policy_witness :
    serverHandleConnection { validateConnection := none, handshakeTimeout := none }
      (some (List.replicate 146 0)) = (none, true) := by
  exact acceptor_handshake_policy.2.2.2.2.1
    { validateConnection := none, handshakeTimeout := none }
    (List.replicate 146 0) (by decide) (by decide)

end ProcessProxy

namespace ProcessProxy

/-- Claim C8 (confirmed): once a stream's close command has succeeded with
status 0 (the descriptor is closed), the next close of the same stream makes
`close(fd)` fail with `EBADF`, so the native side replies with a non-zero
status and a nonempty error message on the wire, and the controller-side
close operation rejects with an error carrying that message.  `strerr` is
the platform's `strerror(EBADF)` text, which is nonempty. -/
theorem double_close_rejects (strerr : List Nat) (st : ConnState) (rest : List Nat)
    (cmd : Cmd) (hc : isCloseStream cmd = true)
    (hmsg : strerr ≠ []) (hlen : strerr.length < 2 ^ 32)
    (hopen : st.closed = false) (hexit : st.hasSentExit = false) :
    handle_close_stream true EBADF (some strerr) = (send_success, false) ∧
    (handle_close_stream false EBADF (some strerr)).1 =
      i32le (-1) ++ (u32le strerr.length ++ strerr) ∧
    ((-1 : Int) ≠ 0 ∧ strerr ≠ []) ∧
    (invoke st ((handle_close_stream false EBADF (some strerr)).1 ++ rest) cmd).result =
      .error (textOfBytes strerr) ∧
    textOfBytes strerr ≠ "" := by
  have hne : textOfBytes strerr ≠ "" := fun h =>
    hmsg ((textOfBytes_eq_empty_iff strerr).mp h)
  have hin : (handle_close_stream false EBADF (some strerr)).1 ++ rest =
      i32le (-1) ++ (u32le strerr.length ++ (strerr ++ rest)) := by
    show ((i32le (-1) ++ u32le strerr.length) ++ strerr) ++ rest = _
    simp [List.append_assoc]
  have hiw : invoke st (i32le (-1) ++ (u32le strerr.length ++ (strerr ++ rest))) cmd =
      invokeWire st (i32le (-1) ++ (u32le strerr.length ++ (strerr ++ rest))) cmd := by
    rw [invoke_eq_guard_of_not_exit st _ cmd (isExit_false_of_closeStream cmd hc)]
    exact invokeGuard_open st _ cmd (by rw [hopen, hexit]; rfl)
  refine ⟨rfl, ?_, ⟨by norm_num, hmsg⟩, ?_, hne⟩
  · show (i32le (-1) ++ u32le strerr.length) ++ strerr = _
    simp [List.append_assoc]
  · rw [hin, hiw, invokeWire_error_status st cmd (-1) strerr rest (by norm_num)
      (by norm_num) (by norm_num) hlen]
    show Except.error (if textOfBytes strerr = ""
        then s!"Unknown error {(-1 : Int)} from proxy" else textOfBytes strerr) =
      Except.error (textOfBytes strerr)
    rw [if_neg hne]

/-- Witness for C8: the second `closeStdin` with the message
"Bad file descriptor". -/
theorem double_close_rejects_witness :
    (invoke initialState
        ((handle_close_stream false EBADF (some (strBytes "Bad file descriptor"))).1 ++ [])
        .closeStdin).result =
      .error (textOfBytes (strBytes "Bad file descriptor")) ∧
    textOfBytes (strBytes "Bad file descriptor") ≠ "" := by
  have h := double_close_rejects (strBytes "Bad file descriptor") initialState [] .closeStdin
    rfl (by decide) (by decide) rfl rfl
  exact ⟨h.2.2.2.1, h.2.2.2.2⟩

end ProcessProxy
